import Mathlib

/-!
Shallow embedding of the guru batch data-fetcher (src/sync_req.py,
src/req.py, src/stock_valuation_fetcher.py).

The pipeline in `sync_req.py` reads stock codes from a file, derives a
market prefix per code, issues one HTTP request per code through
`query_gurufocus_history`, and routes each result: status 200 payloads
are filtered by their `rank` field (rank < 90 skipped, rank >= 90 added
to the high-rank list) and saved; non-200 results are logged as failures.

The network is abstracted as a transport oracle: for each stock code and
attempt number it yields either a response (status, decode result, raw
text) or one of the exception paths the source catches (timeout,
client error, other exception). Everything else is translated directly
from the Python source.
-/

namespace Guru

/-- MAX_WORKERS, sync_req.py line 12 (global concurrency limit). -/
def MAX_WORKERS : Nat := 10

/-- Result of attempting to decode a 200 response body as JSON:
either a decoded document (of which the pipeline only reads the
optional numeric `rank` field) or a decode failure with the raw text. -/
inductive DecodeResult where
  | ok (rank : Option Int)
  | fail (text : String)
deriving DecidableEq

/-- One transport interaction, covering the four paths distinguished by
`query_gurufocus_history` (sync_req.py lines 83-116): a server response,
`asyncio.TimeoutError`, `aiohttp.ClientError`, or any other exception. -/
inductive TransportResult where
  | response (status : Nat) (body : DecodeResult) (text : String)
  | timeout
  | clientError (details : String)
  | otherExc (details : String)
deriving DecidableEq

/-- The `data` dict returned by `query_gurufocus_history`: either the
decoded payload or one of the error dicts built in the handler branches
(sync_req.py lines 102, 106, 110, 113, 116). Only the payload carries a
`rank` key; `data.get('rank', None)` reads `none` on every error dict. -/
inductive RespData where
  | payload (rank : Option Int)
  | jsonError (content : String)
  | non200 (status : Nat) (content : String)
  | timeoutErr
  | httpErr (details : String)
  | unknownErr (details : String)
deriving DecidableEq

/-- `data.get('rank', None)` on the dicts of `RespData`. -/
def RespData.get_rank : RespData → Option Int
  | .payload rank => rank
  | _ => none

/-- The 4-tuple `(stock_code, data, status_code, market_prefix)` that
`query_gurufocus_history` returns on every path. -/
structure QueryResult where
  stock_code : String
  data : RespData
  status_code : Nat
  market_pfx : String
deriving DecidableEq

/-- Observable side effects of one worker invocation; the body of
`query_gurufocus_history` performs exactly one `session.get` and never
sleeps (there is no retry loop and no sleep call in sync_req.py). -/
inductive Effect where
  | httpGet (url : String)
  | sleep (seconds : Nat)
deriving DecidableEq

/-- Whether an effect is a backoff sleep. -/
def Effect.isSleep : Effect → Bool
  | .sleep _ => true
  | _ => false

/-- The request URL built at sync_req.py line 53. -/
def urlOf (market_pfx stock_code : String) : String :=
  "https://www.gurufocus.com/reader/_api/gf_rank/" ++ market_pfx ++ stock_code ++ "?v=1.7.44"

/-- Python `str[:500]`, used for the stored `content` fields. -/
def take500 (text : String) : String := ⟨text.data.take 500⟩

/-- `query_gurufocus_history` (sync_req.py lines 40-116), as a function of
the transport's answer for this single request. Returns the 4-tuple
together with the list of effects the body performs: one GET, no sleep.
The counter increment at lines 50-51 is threaded by the caller
(`runTasks`), matching the global `request_counter`. -/
def query_gurufocus_history (stock_code market_pfx : String) (t : TransportResult) :
    QueryResult × List Effect :=
  let effs := [Effect.httpGet (urlOf market_pfx stock_code)]
  match t with
  | .response status body text =>
    if status = 200 then
      match body with
      | .ok rank => (⟨stock_code, .payload rank, status, market_pfx⟩, effs)
      | .fail _ => (⟨stock_code, .jsonError (take500 text), status, market_pfx⟩, effs)
    else (⟨stock_code, .non200 status (take500 text), status, market_pfx⟩, effs)
  | .timeout => (⟨stock_code, .timeoutErr, 408, market_pfx⟩, effs)
  | .clientError d => (⟨stock_code, .httpErr d, 500, market_pfx⟩, effs)
  | .otherExc d => (⟨stock_code, .unknownErr d, 500, market_pfx⟩, effs)

/-- `get_market_prefix` (sync_req.py lines 118-130): empty code maps to
the empty string; leading '6' to "SHSE:"; leading '0' or '3' to "SZSE:";
any other leading character falls through to the lenient default "SHSE:"
with a warning. -/
def get_market_pfx (stock_code : String) : String :=
  match stock_code.data with
  | [] => ""
  | first_char :: _ =>
    if first_char = '6' then "SHSE:"
    else if first_char = '0' ∨ first_char = '3' then "SZSE:"
    else "SHSE:"

/-- Python `str.strip()`: drop whitespace from both ends of the line. -/
def strip (line : String) : String :=
  ⟨((line.data.dropWhile Char.isWhitespace).reverse.dropWhile Char.isWhitespace).reverse⟩

/-- The line-processing loop of `read_stock_codes` (sync_req.py lines
138-144): keep each non-empty stripped line on first occurrence
(`if code and code not in stock_codes`), preserving order. No format
validation is performed here. -/
def read_stock_codes_lines (lines : List String) : List String :=
  lines.foldl
    (fun stock_codes line =>
      let code := strip line
      if code ≠ "" ∧ code ∉ stock_codes then stock_codes ++ [code] else stock_codes)
    []

/-- The error raised by `read_stock_codes` when the source file is
absent (sync_req.py lines 134-136, `FileNotFoundError`); this is the
spec's `ConfigError`. -/
inductive ConfigError where
  | fileNotFound (path : String)
deriving DecidableEq

/-- `read_stock_codes` (sync_req.py lines 132-146): the file is modelled
as `Option (List String)`, `none` when `os.path.exists` is false, in
which case the function raises before reading any code. -/
def read_stock_codes (path : String) (file : Option (List String)) :
    Except ConfigError (List String) :=
  match file with
  | none => .error (.fileNotFound path)
  | some lines => .ok (read_stock_codes_lines lines)

/-- One increment of the global `defaultdict(int)` request counter
(sync_req.py lines 24 and 50), kept as an association list in key
insertion order. -/
def bump : List (String × Nat) → String → List (String × Nat)
  | [], code => [(code, 1)]
  | (k, v) :: rest, code =>
    if k = code then (k, v + 1) :: rest else (k, v) :: bump rest code

/-- Read `request_counter[code]` (0 for an absent key, as defaultdict). -/
def lookupCount : List (String × Nat) → String → Nat
  | [], _ => 0
  | (k, v) :: rest, code => if k = code then v else lookupCount rest code

/-- Task construction (sync_req.py lines 180-184): pair each code with
its derived market prefix. -/
def tasksOf (stock_codes : List String) : List (String × String) :=
  stock_codes.map (fun code => (get_market_pfx code, code))

/-- Running the task list (sync_req.py lines 195-221): for each task the
counter is bumped (lines 50-51), the current attempt number is read, and
`query_gurufocus_history` is invoked once with the transport's answer
for that code and attempt. There is no retry: each task performs exactly
one query. The transport oracle takes the code and the attempt number so
that scripted scenarios (e.g. 503 three times then 200) can be expressed;
the code only ever consults attempt 1. -/
def runTasks (transport : String → Nat → TransportResult) :
    List (String × String) → List (String × Nat) →
    List (QueryResult × List Effect) × List (String × Nat)
  | [], counter => ([], counter)
  | (market_pfx, stock_code) :: rest, counter =>
    let counter' := bump counter stock_code
    let attempt := lookupCount counter' stock_code
    let r := query_gurufocus_history stock_code market_pfx (transport stock_code attempt)
    (r :: (runTasks transport rest counter').1, (runTasks transport rest counter').2)

/-- Terminal routing of one result by the processing loop
(sync_req.py lines 227-248): on status 200, `rank < 90` is skipped
(`continue`, nothing saved), otherwise the payload is saved and the code
is added to the high-rank list exactly when `rank is not None and
rank >= 90`; on any other status the result is logged as a failure. -/
inductive RouteOutcome where
  | skipped (rank : Int)
  | saved (rank : Option Int) (addedToHighRank : Bool)
  | failedStatus (status : Nat)
deriving DecidableEq

/-- The body of the result-processing loop (sync_req.py lines 229-248)
for one result tuple. -/
def route_result (r : QueryResult) : RouteOutcome :=
  if r.status_code = 200 then
    match r.data.get_rank with
    | some rank => if rank < 90 then .skipped rank
                   else .saved (some rank) (decide (rank ≥ 90))
    | none => .saved none false
  else .failedStatus r.status_code

/-- Whether the outcome writes the payload file (lines 240-246). -/
def RouteOutcome.persists : RouteOutcome → Bool
  | .saved _ _ => true
  | _ => false

/-- Whether the outcome appends to `rank_above_90_codes` (lines 236-238). -/
def RouteOutcome.addsHighRank : RouteOutcome → Bool
  | .saved _ b => b
  | _ => false

/-- Outcome classification for the statistics: saved. -/
def RouteOutcome.isSaved : RouteOutcome → Bool
  | .saved _ _ => true
  | _ => false

/-- Outcome classification: skipped by the rank filter. -/
def RouteOutcome.isSkipped : RouteOutcome → Bool
  | .skipped _ => true
  | _ => false

/-- Outcome classification: non-200 failure. -/
def RouteOutcome.isFailed : RouteOutcome → Bool
  | .failedStatus _ => true
  | _ => false

/-- The routed outcomes of a batch, one per result, in order. -/
def routedOf (results : List (QueryResult × List Effect)) : List RouteOutcome :=
  results.map (fun r => route_result r.1)

/-- The `rank_above_90_codes` list accumulated by the processing loop
(sync_req.py lines 177 and 236-238). -/
def rank_above_90_codes (results : List (QueryResult × List Effect)) : List String :=
  results.filterMap
    (fun r => if (route_result r.1).addsHighRank then some r.1.stock_code else none)

/-- All effects performed by the batch, in task order. -/
def effectsOf (results : List (QueryResult × List Effect)) : List Effect :=
  results.flatMap (fun r => r.2)

/-- `sum(1 for code in stock_codes if code.startswith('6'))`
(sync_req.py line 264); `startswith('6')` tests the leading character. -/
def startswith6 (code : String) : Bool :=
  match code.data with
  | c :: _ => c = '6'
  | [] => false

/-- `sh_count` of the final summary (sync_req.py line 264). -/
def sh_count (stock_codes : List String) : Nat :=
  (stock_codes.filter startswith6).length

/-- `sz_count = len(stock_codes) - sh_count` (sync_req.py line 265). -/
def sz_count (stock_codes : List String) : Nat :=
  stock_codes.length - sh_count stock_codes

/-- The state of one finished batch run. -/
structure BatchRun where
  stock_codes : List String
  results : List (QueryResult × List Effect)
  counter : List (String × Nat)
deriving DecidableEq

/-- `batch_request_save_filtered` (sync_req.py lines 160-268): read the
codes (raising `ConfigError` when the file is absent, before any task is
built), return early when no code survives reading (lines 172-174,
modelled as `.ok none`), otherwise run every task once and process the
results. All per-identifier transport errors are absorbed inside
`query_gurufocus_history`; nothing after the file read can abort the run. -/
def batch_request_save_filtered (path : String) (file : Option (List String))
    (transport : String → Nat → TransportResult) :
    Except ConfigError (Option BatchRun) :=
  match read_stock_codes path file with
  | .error e => .error e
  | .ok stock_codes =>
    if stock_codes.isEmpty then .ok none
    else
      let (results, counter) := runTasks transport (tasksOf stock_codes) []
      .ok (some ⟨stock_codes, results, counter⟩)

/-- The spec's end-to-end scenario B transport: HTTP 503 for the first
three attempts, then 200 with rank 100. -/
def scriptB : Nat → TransportResult := fun attempt =>
  if attempt ≤ 3 then .response 503 (.ok none) "Service Unavailable"
  else .response 200 (.ok (some 100)) ""

/-- First-occurrence deduplication, the key order of a `defaultdict`
filled by iterating the codes. -/
def dedupFirst (l : List String) : List String :=
  l.foldl (fun acc c => if c ∈ acc then acc else acc ++ [c]) []

/-- Phase of one `bounded_task` coroutine created at sync_req.py
line 218: not yet scheduled, request in flight (inside the awaited
`session.get`), or finished. -/
inductive TaskPhase where
  | pending
  | inFlight
  | done
deriving DecidableEq

/-- State of the event loop running the gathered coroutines: the phase
of each task and the free-permit count of the `asyncio.Semaphore`
created at sync_req.py line 193. -/
structure Sched where
  phases : List TaskPhase
  sem : Nat
deriving DecidableEq

/-- Interleaving semantics of the gathered `bounded_task` coroutines
(sync_req.py lines 195-221). The body of `bounded_task` awaits
`query_gurufocus_history` directly and never acquires the semaphore, so
a pending task may enter its HTTP request at any time without taking a
permit, and finishing returns none. -/
inductive SyncStep : Sched → Sched → Prop where
  | start (s : Sched) (i : Nat) (h : s.phases.get? i = some .pending) :
      SyncStep s ⟨s.phases.set i .inFlight, s.sem⟩
  | finish (s : Sched) (i : Nat) (h : s.phases.get? i = some .inFlight) :
      SyncStep s ⟨s.phases.set i .done, s.sem⟩

/-- Reachability of event-loop states. -/
def SyncReachable : Sched → Sched → Prop := Relation.ReflTransGen SyncStep

/-- Number of HTTP requests currently in flight. -/
def inFlightCount (s : Sched) : Nat := s.phases.count .inFlight

/-- The initial event-loop state for a batch of eleven identifiers under
the global limit `MAX_WORKERS = 10`. -/
def elevenTasks : Sched := ⟨List.replicate 11 .pending, MAX_WORKERS⟩

end Guru

namespace Fetcher

/-- The validity test of `read_stock_codes`
(stock_valuation_fetcher.py line 50):
`if code and len(code) == 6 and code.isdigit()`. -/
def isValidCode (code : String) : Bool :=
  code != "" && code.data.length == 6 && code.data.all Char.isDigit

/-- `get_market_prefix` (stock_valuation_fetcher.py lines 27-38): codes
that are empty, not 6 characters long, or not all digits map to the
empty string (strict mode: the caller `batch_fetch` drops them);
otherwise leading '6' maps to "SHSE", leading '0' or '3' to "SZSE", and
any other leading digit again to the empty string. -/
def get_market_pfx (stock_code : String) : String :=
  if stock_code.data.length = 6 ∧ stock_code.data.all Char.isDigit then
    match stock_code.data with
    | first_char :: _ =>
      if first_char = '6' then "SHSE"
      else if first_char = '0' ∨ first_char = '3' then "SZSE"
      else ""
    | [] => ""
  else ""

/-- The line-processing loop of `read_stock_codes`
(stock_valuation_fetcher.py lines 46-54): keep every stripped line that
is non-empty, 6 characters long and all digits, warn and skip the rest.
No deduplication is performed. -/
def read_stock_codes_lines (lines : List String) : List String :=
  lines.foldl
    (fun stock_codes line =>
      let code := Guru.strip line
      if isValidCode code then stock_codes ++ [code] else stock_codes)
    []

end Fetcher

namespace Guru

/-- Helper: `runTasks` yields exactly one result tuple per task,
whatever the transport answers and whatever the counter state. -/
theorem runTasks_length (transport : String → Nat → TransportResult) :
    ∀ (tasks : List (String × String)) (counter : List (String × Nat)),
      ((runTasks transport tasks counter).1).length = tasks.length := by
  intro tasks
  induction tasks with
  | nil => intro counter; rfl
  | cons t rest ih =>
    intro counter
    simp only [runTasks]
    simp [ih]

/-- Helper: every routed outcome is exactly one of saved, skipped,
failed, so the three class counts sum to the list length. -/
theorem route_partition (l : List RouteOutcome) :
    ((l.filter RouteOutcome.isSaved).length + (l.filter RouteOutcome.isSkipped).length) +
      (l.filter RouteOutcome.isFailed).length = l.length := by
  induction l with
  | nil => rfl
  | cons o rest ih =>
    cases o <;>
      simp [List.filter, RouteOutcome.isSaved, RouteOutcome.isSkipped,
        RouteOutcome.isFailed] <;> omega

/-- C3: every identifier submitted to the batch yields exactly one
terminal routed outcome — `runTasks` returns one result tuple per code
even when the transport times out or raises, and the saved, skipped and
failed counts of the routed outcomes sum to the number of identifiers
submitted. -/
theorem one_outcome_per_identifier (stock_codes : List String)
    (transport : String → Nat → TransportResult) :
    ((runTasks transport (tasksOf stock_codes) []).1).length = stock_codes.length ∧
    (((routedOf (runTasks transport (tasksOf stock_codes) []).1).filter
          RouteOutcome.isSaved).length +
        ((routedOf (runTasks transport (tasksOf stock_codes) []).1).filter
          RouteOutcome.isSkipped).length) +
      ((routedOf (runTasks transport (tasksOf stock_codes) []).1).filter
        RouteOutcome.isFailed).length = stock_codes.length := by
  have hlen : ((runTasks transport (tasksOf stock_codes) []).1).length = stock_codes.length := by
    rw [runTasks_length]; simp [tasksOf]
  refine ⟨hlen, ?_⟩
  have h := route_partition (routedOf (runTasks transport (tasksOf stock_codes) []).1)
  have hr : (routedOf (runTasks transport (tasksOf stock_codes) []).1).length
      = stock_codes.length := by
    simp [routedOf, hlen]
  rwa [hr] at h

/-- C5 counterexample: a 200 response whose body fails JSON decoding is
not routed to a failure — the error dict comes back with status code
200, is persisted as the identifier's saved JSON file, and is not
counted as failed. -/
theorem decode_failure_persisted_cex :
    route_result (query_gurufocus_history "603001" "SHSE:"
        (.response 200 (.fail "<html>") "<html>")).1 = .saved none false ∧
    (route_result (query_gurufocus_history "603001" "SHSE:"
        (.response 200 (.fail "<html>") "<html>")).1).persists = true ∧
    (route_result (query_gurufocus_history "603001" "SHSE:"
        (.response 200 (.fail "<html>") "<html>")).1).isFailed = false := by
  decide

/-- C5 amended: on a 200 response whose body fails decoding, the worker
returns the decode-error dict with status code 200 and performs no
retry and no sleep; the router then persists that dict as the
identifier's saved file (it is not added to the high-rank list and is
not counted as a failure). -/
theorem decode_failure_saved (stock_code market_pfx text : String) :
    (query_gurufocus_history stock_code market_pfx
        (.response 200 (.fail text) text)).1.status_code = 200 ∧
    (query_gurufocus_history stock_code market_pfx
        (.response 200 (.fail text) text)).1.data = .jsonError (take500 text) ∧
    route_result (query_gurufocus_history stock_code market_pfx
        (.response 200 (.fail text) text)).1 = .saved none false ∧
    (route_result (query_gurufocus_history stock_code market_pfx
        (.response 200 (.fail text) text)).1).persists = true ∧
    (route_result (query_gurufocus_history stock_code market_pfx
        (.response 200 (.fail text) text)).1).isFailed = false ∧
    ((query_gurufocus_history stock_code market_pfx
        (.response 200 (.fail text) text)).2).filter Effect.isSleep = [] := by
  refine ⟨rfl, rfl, rfl, rfl, rfl, rfl⟩

/-- C10: when every 200 response decodes to a payload without a rank
field, every identifier is routed to saved (the payload is persisted)
yet the high-rank list stays empty — absence of rank admits persistence
but never admits the threshold list. -/
theorem missing_rank_saved_not_listed (stock_codes : List String) (text : String) :
    routedOf (runTasks (fun _ _ => .response 200 (.ok none) text)
        (tasksOf stock_codes) []).1 =
      List.replicate stock_codes.length (.saved none false) ∧
    rank_above_90_codes (runTasks (fun _ _ => .response 200 (.ok none) text)
        (tasksOf stock_codes) []).1 = [] := by
  have key : ∀ (tasks : List (String × String)) (counter : List (String × Nat)),
      routedOf (runTasks (fun _ _ => .response 200 (.ok none) text) tasks counter).1 =
        List.replicate tasks.length (.saved none false) ∧
      rank_above_90_codes (runTasks (fun _ _ => .response 200 (.ok none) text)
          tasks counter).1 = [] := by
    intro tasks
    induction tasks with
    | nil => intro counter; exact ⟨rfl, rfl⟩
    | cons t rest ih =>
      intro counter
      obtain ⟨mp, code⟩ := t
      have ih1 := (ih (bump counter code)).1
      have ih2 := (ih (bump counter code)).2
      simp only [routedOf] at ih1
      simp only [rank_above_90_codes] at ih2
      have hhead : route_result (query_gurufocus_history code mp
          (.response 200 (.ok none) text)).1 = .saved none false := rfl
      constructor
      · simp only [runTasks, routedOf, List.map_cons, List.replicate_succ, List.length_cons,
          ih1, hhead]
      · have hflag : (route_result (query_gurufocus_history code mp
            (.response 200 (.ok none) text)).1).addsHighRank = false := rfl
        simp only [runTasks, rank_above_90_codes, List.filterMap_cons, hflag,
          Bool.false_eq_true, if_false, ih2]
  have h := key (tasksOf stock_codes) []
  simpa [tasksOf] using h

/-- C1 counterexample: on the spec's scenario B transport (HTTP 503 on
the first three attempts, then 200 with rank 100) with the single code
"603005", the pipeline performs exactly one attempt, sleeps zero
times, and ends the identifier as a status-503 failure — not Success
after 4 attempts with 3 backoff sleeps. There is no retry loop in
`query_gurufocus_history` or its caller. -/
theorem no_retry_cex :
    batch_request_save_filtered "code.txt" (some ["603005"]) (fun _ a => scriptB a) =
      .ok (some ⟨["603005"],
        [(⟨"603005", .non200 503 "Service Unavailable", 503, "SHSE:"⟩,
          [.httpGet (urlOf "SHSE:" "603005")])],
        [("603005", 1)]⟩) ∧
    routedOf [(⟨"603005", .non200 503 "Service Unavailable", 503, "SHSE:"⟩,
        [.httpGet (urlOf "SHSE:" "603005")])] = [.failedStatus 503] ∧
    (effectsOf [(⟨"603005", .non200 503 "Service Unavailable", 503, "SHSE:"⟩,
        [.httpGet (urlOf "SHSE:" "603005")])]).filter Effect.isSleep = [] ∧
    lookupCount [("603005", 1)] "603005" = 1 := by
  refine ⟨rfl, by decide, by decide, by decide⟩

/-- C1 amended: the FetchWorker performs exactly one attempt per
identifier, with no backoff sleep and no reissued request; a retryable
status (such as 503) on that single attempt ends the identifier as a
status-classified failure, regardless of what the transport would have
answered on later attempts. -/
theorem single_attempt_no_backoff (stock_code mpfx : String)
    (t : Nat → TransportResult) (s : Nat) (body : DecodeResult) (text : String)
    (hs : t 1 = .response s body text) (h200 : s ≠ 200) :
    ((runTasks (fun _ a => t a) [(mpfx, stock_code)] []).1).length = 1 ∧
    lookupCount ((runTasks (fun _ a => t a) [(mpfx, stock_code)] []).2) stock_code = 1 ∧
    (effectsOf ((runTasks (fun _ a => t a) [(mpfx, stock_code)] []).1)).filter
      Effect.isSleep = [] ∧
    routedOf ((runTasks (fun _ a => t a) [(mpfx, stock_code)] []).1) =
      [.failedStatus s] := by
  have hl : lookupCount (bump [] stock_code) stock_code = 1 := by
    simp [bump, lookupCount]
  have hq : query_gurufocus_history stock_code mpfx (.response s body text) =
      (⟨stock_code, .non200 s (take500 text), s, mpfx⟩,
        [.httpGet (urlOf mpfx stock_code)]) := by
    simp [query_gurufocus_history, h200]
  simp only [runTasks, hl, hs, hq, effectsOf, routedOf, List.map_cons, List.map_nil,
    List.flatMap_cons, List.flatMap_nil]
  refine ⟨by simp, by simp [bump, lookupCount], by simp [Effect.isSleep], ?_⟩
  simp [route_result, h200]

/-- Witness for the amended C1 at the scenario B script. -/
theorem single_attempt_no_backoff_witness :
    scriptB 1 = .response 503 (.ok none) "Service Unavailable" ∧ 503 ≠ 200 ∧
    (((runTasks (fun _ a => scriptB a) [("SHSE:", "603005")] []).1).length = 1 ∧
      lookupCount ((runTasks (fun _ a => scriptB a) [("SHSE:", "603005")] []).2)
        "603005" = 1 ∧
      (effectsOf ((runTasks (fun _ a => scriptB a) [("SHSE:", "603005")] []).1)).filter
        Effect.isSleep = [] ∧
      routedOf ((runTasks (fun _ a => scriptB a) [("SHSE:", "603005")] []).1) =
        [.failedStatus 503]) :=
  ⟨by decide, by decide,
    single_attempt_no_backoff "603005" "SHSE:" scriptB 503 (.ok none)
      "Service Unavailable" (by decide) (by decide)⟩

/-- C2 (code bug): with eleven identifiers and `MAX_WORKERS = 10`, the
event loop can reach a state where all eleven HTTP requests are in
flight simultaneously — the semaphore created at sync_req.py line 193
is never acquired by `bounded_task`, so the admission gate bounds
nothing. -/
theorem concurrency_gate_unused :
    SyncReachable elevenTasks ⟨List.replicate 11 .inFlight, MAX_WORKERS⟩ ∧
    inFlightCount ⟨List.replicate 11 .inFlight, MAX_WORKERS⟩ = 11 ∧
    MAX_WORKERS < 11 := by
  refine ⟨?_, by decide, by decide⟩
  show Relation.ReflTransGen SyncStep _ _
  apply Relation.ReflTransGen.head (SyncStep.start _ 0 (by decide))
  apply Relation.ReflTransGen.head (SyncStep.start _ 1 (by decide))
  apply Relation.ReflTransGen.head (SyncStep.start _ 2 (by decide))
  apply Relation.ReflTransGen.head (SyncStep.start _ 3 (by decide))
  apply Relation.ReflTransGen.head (SyncStep.start _ 4 (by decide))
  apply Relation.ReflTransGen.head (SyncStep.start _ 5 (by decide))
  apply Relation.ReflTransGen.head (SyncStep.start _ 6 (by decide))
  apply Relation.ReflTransGen.head (SyncStep.start _ 7 (by decide))
  apply Relation.ReflTransGen.head (SyncStep.start _ 8 (by decide))
  apply Relation.ReflTransGen.head (SyncStep.start _ 9 (by decide))
  apply Relation.ReflTransGen.head (SyncStep.start _ 10 (by decide))
  exact Relation.ReflTransGen.refl

/-- C4: a 200 payload whose rank is below 90 is routed to skipped —
nothing is persisted and the identifier is never added to the high-rank
list — while a payload with rank at least 90 is persisted. -/
theorem low_rank_skipped (stock_code mpfx text : String) (v w : Int)
    (hv : v < 90) (hw : 90 ≤ w) :
    route_result (query_gurufocus_history stock_code mpfx
        (.response 200 (.ok (some v)) text)).1 = .skipped v ∧
    (route_result (query_gurufocus_history stock_code mpfx
        (.response 200 (.ok (some v)) text)).1).persists = false ∧
    (route_result (query_gurufocus_history stock_code mpfx
        (.response 200 (.ok (some v)) text)).1).addsHighRank = false ∧
    rank_above_90_codes [query_gurufocus_history stock_code mpfx
        (.response 200 (.ok (some v)) text)] = [] ∧
    (route_result (query_gurufocus_history stock_code mpfx
        (.response 200 (.ok (some w)) text)).1).persists = true := by
  have hnw : ¬ (w < 90) := not_lt.mpr hw
  simp [query_gurufocus_history, route_result, RespData.get_rank, RouteOutcome.persists,
    RouteOutcome.addsHighRank, rank_above_90_codes, hv, hnw]

/-- Witness for C4 at ranks 50 and 95. -/
theorem low_rank_skipped_witness :
    (50 : Int) < 90 ∧ (90 : Int) ≤ 95 ∧
    (route_result (query_gurufocus_history "603002" "SHSE:"
        (.response 200 (.ok (some 50)) "")).1 = .skipped 50 ∧
      (route_result (query_gurufocus_history "603002" "SHSE:"
          (.response 200 (.ok (some 50)) "")).1).persists = false ∧
      (route_result (query_gurufocus_history "603002" "SHSE:"
          (.response 200 (.ok (some 50)) "")).1).addsHighRank = false ∧
      rank_above_90_codes [query_gurufocus_history "603002" "SHSE:"
          (.response 200 (.ok (some 50)) "")] = [] ∧
      (route_result (query_gurufocus_history "603002" "SHSE:"
          (.response 200 (.ok (some 95)) "")).1).persists = true) :=
  ⟨by decide, by decide,
    low_rank_skipped "603002" "SHSE:" "" 50 95 (by decide) (by decide)⟩

/-- Helper: the sync reader's fold keeps the accumulator duplicate-free
and collects exactly the non-empty stripped lines. -/
theorem read_lines_sync_aux (lines : List String) :
    ∀ acc : List String, acc.Nodup →
      (lines.foldl (fun stock_codes line =>
          let code := strip line
          if code ≠ "" ∧ code ∉ stock_codes then stock_codes ++ [code] else stock_codes)
        acc).Nodup ∧
      ∀ c, c ∈ lines.foldl (fun stock_codes line =>
          let code := strip line
          if code ≠ "" ∧ code ∉ stock_codes then stock_codes ++ [code] else stock_codes)
        acc ↔ (c ∈ acc ∨ (c ∈ lines.map strip ∧ c ≠ "")) := by
  induction lines with
  | nil => intro acc hacc; exact ⟨hacc, by simp⟩
  | cons l ls ih =>
    intro acc hacc
    simp only [List.foldl_cons]
    by_cases hcond : strip l ≠ "" ∧ strip l ∉ acc
    · rw [if_pos hcond]
      have hacc' : (acc ++ [strip l]).Nodup := by
        simp [List.nodup_append, hacc, hcond.2]
      obtain ⟨ihn, ihm⟩ := ih (acc ++ [strip l]) hacc'
      refine ⟨ihn, ?_⟩
      intro c
      rw [ihm c]
      simp only [List.mem_append, List.mem_singleton, List.map_cons, List.mem_cons]
      rcases eq_or_ne c (strip l) with hc | hc
      · subst hc
        simp [hcond.1]
      · simp [hc]
    · rw [if_neg hcond]
      push_neg at hcond
      obtain ⟨ihn, ihm⟩ := ih acc hacc
      refine ⟨ihn, ?_⟩
      intro c
      rw [ihm c]
      simp only [List.map_cons, List.mem_cons]
      rcases eq_or_ne c (strip l) with hc | hc
      · subst hc
        by_cases hne : strip l = ""
        · simp [hne]
        · simp [hcond hne, hne]
      · simp [hc]

/-- Helper: the valuation reader's fold appends exactly the stripped
lines that pass the validity test, duplicates included. -/
theorem read_lines_fetcher_aux (lines : List String) :
    ∀ acc : List String,
      lines.foldl (fun stock_codes line =>
          let code := strip line
          if Fetcher.isValidCode code then stock_codes ++ [code] else stock_codes) acc =
        acc ++ (lines.map strip).filter Fetcher.isValidCode := by
  induction lines with
  | nil => intro acc; simp
  | cons l ls ih =>
    intro acc
    simp only [List.foldl_cons, List.map_cons, List.filter_cons]
    by_cases h : Fetcher.isValidCode (strip l)
    · simp [h, ih]
    · simp [h, ih]

/-- C6 counterexample: on a file holding a duplicate and the malformed
entry "12a456", the file-mode reader (sync_req.py) yields the duplicate
once but passes the malformed entry straight through — wrong-format
codes do reach the scheduler — while the valuation reader
(stock_valuation_fetcher.py) excludes the malformed entry but yields
the duplicate twice. -/
theorem identifier_source_cex :
    Guru.read_stock_codes_lines ["603001", "603001", "12a456"] = ["603001", "12a456"] ∧
    Fetcher.isValidCode "12a456" = false ∧
    Fetcher.read_stock_codes_lines ["603001", "603001", "12a456"] =
      ["603001", "603001"] := by
  refine ⟨by decide, by decide, by decide⟩

/-- C6 amended: the two identifier sources each provide half of the
claimed contract. The file-mode reader of sync_req.py deduplicates —
its output is duplicate-free and holds exactly the non-empty stripped
lines, malformed or not — while the reader of
stock_valuation_fetcher.py excludes malformed entries (with a logged
warning) but keeps duplicates: its output is exactly the stripped lines
passing the 6-digit validity test, in order and with multiplicity. -/
theorem identifier_source_amended (lines : List String) :
    (Guru.read_stock_codes_lines lines).Nodup ∧
    (∀ c, c ∈ Guru.read_stock_codes_lines lines ↔
      (c ∈ lines.map Guru.strip ∧ c ≠ "")) ∧
    Fetcher.read_stock_codes_lines lines =
      (lines.map Guru.strip).filter Fetcher.isValidCode := by
  obtain ⟨h1, h2⟩ := read_lines_sync_aux lines [] List.nodup_nil
  have hdef : read_stock_codes_lines lines = List.foldl (fun stock_codes line =>
      let code := strip line
      if code ≠ "" ∧ code ∉ stock_codes then stock_codes ++ [code] else stock_codes)
      [] lines := rfl
  have hdef2 : Fetcher.read_stock_codes_lines lines = List.foldl (fun stock_codes line =>
      let code := strip line
      if Fetcher.isValidCode code then stock_codes ++ [code] else stock_codes)
      [] lines := rfl
  refine ⟨?_, ?_, ?_⟩
  · rw [hdef]; exact h1
  · intro c
    rw [hdef, h2 c]
    simp
  · rw [hdef2, read_lines_fetcher_aux lines []]
    simp

/-- C7: for well-formed identifiers (six characters, all digits) both
market-prefix derivations are pure functions of the leading digit:
leading '6' yields exchange A ("SHSE:" lenient, "SHSE" strict), leading
'0' or '3' yields exchange B ("SZSE:" lenient, "SZSE" strict), and any
other leading digit yields the lenient default "SHSE:" in sync_req.py
and the aborting empty prefix in stock_valuation_fetcher.py. -/
theorem market_pfx_pure (c d : String)
    (hc6 : c.data.length = 6) (hcd : c.data.all Char.isDigit = true)
    (hd6 : d.data.length = 6) (hdd : d.data.all Char.isDigit = true)
    (hhead : c.data.head? = d.data.head?) :
    (Guru.get_market_pfx c = Guru.get_market_pfx d ∧
      Fetcher.get_market_pfx c = Fetcher.get_market_pfx d) ∧
    (c.data.head? = some '6' →
      Guru.get_market_pfx c = "SHSE:" ∧ Fetcher.get_market_pfx c = "SHSE") ∧
    (c.data.head? = some '0' ∨ c.data.head? = some '3' →
      Guru.get_market_pfx c = "SZSE:" ∧ Fetcher.get_market_pfx c = "SZSE") ∧
    (c.data.head? ≠ some '6' → c.data.head? ≠ some '0' → c.data.head? ≠ some '3' →
      Guru.get_market_pfx c = "SHSE:" ∧ Fetcher.get_market_pfx c = "") := by
  cases hx : c.data with
  | nil => rw [hx] at hc6; simp at hc6
  | cons ch cr =>
    cases hy : d.data with
    | nil => rw [hy] at hd6; simp at hd6
    | cons dh dr =>
      rw [hx] at hc6 hcd hhead
      rw [hy] at hd6 hdd hhead
      have hchd : ch = dh := by simpa using hhead
      subst hchd
      simp only [Guru.get_market_pfx, Fetcher.get_market_pfx, hx, hy, List.head?_cons,
        Option.some.injEq, hc6, hcd, hd6, hdd]
      by_cases h6 : ch = '6'
      · subst h6; simp
      · by_cases h0 : ch = '0'
        · subst h0; simp
        · by_cases h3 : ch = '3'
          · subst h3; simp
          · simp [h6, h0, h3]

/-- Witness for C7 at the codes "603001" and "688888". -/
theorem market_pfx_pure_witness :
    "603001".data.length = 6 ∧ "603001".data.all Char.isDigit = true ∧
    "688888".data.length = 6 ∧ "688888".data.all Char.isDigit = true ∧
    "603001".data.head? = "688888".data.head? ∧
    ((Guru.get_market_pfx "603001" = Guru.get_market_pfx "688888" ∧
        Fetcher.get_market_pfx "603001" = Fetcher.get_market_pfx "688888") ∧
      ("603001".data.head? = some '6' →
        Guru.get_market_pfx "603001" = "SHSE:" ∧
        Fetcher.get_market_pfx "603001" = "SHSE") ∧
      ("603001".data.head? = some '0' ∨ "603001".data.head? = some '3' →
        Guru.get_market_pfx "603001" = "SZSE:" ∧
        Fetcher.get_market_pfx "603001" = "SZSE") ∧
      ("603001".data.head? ≠ some '6' → "603001".data.head? ≠ some '0' →
        "603001".data.head? ≠ some '3' →
        Guru.get_market_pfx "603001" = "SHSE:" ∧
        Fetcher.get_market_pfx "603001" = "")) :=
  ⟨by decide, by decide, by decide, by decide, by decide,
    market_pfx_pure "603001" "688888" (by decide) (by decide) (by decide) (by decide)
      (by decide)⟩

/-- C8: in file mode an absent source file makes the run fail with the
config error before any identifier is scheduled — the transport is
never consulted — and this is the only fatal outcome: whenever the file
exists, the run returns a normal result for every possible transport
behaviour. -/
theorem missing_file_fatal (path : String) (transport : String → Nat → TransportResult) :
    batch_request_save_filtered path none transport = .error (.fileNotFound path) ∧
    (∀ t2 : String → Nat → TransportResult,
      batch_request_save_filtered path none t2 = .error (.fileNotFound path)) ∧
    (∀ lines : List String,
      ∃ r, batch_request_save_filtered path (some lines) transport = .ok r) := by
  refine ⟨rfl, fun _ => rfl, ?_⟩
  intro lines
  simp only [batch_request_save_filtered, read_stock_codes]
  split
  · exact ⟨none, rfl⟩
  · exact ⟨_, rfl⟩

/-- Helper: bumping the counter adds the key at the end on first sight
and otherwise leaves the key list unchanged. -/
theorem bump_keys (c : String) : ∀ m : List (String × Nat),
    (bump m c).map Prod.fst =
      if c ∈ m.map Prod.fst then m.map Prod.fst else m.map Prod.fst ++ [c] := by
  intro m
  induction m with
  | nil => simp [bump]
  | cons kv rest ih =>
    obtain ⟨k, v⟩ := kv
    by_cases hk : k = c
    · subst hk
      simp [bump]
    · by_cases hm : c ∈ rest.map Prod.fst
      · simp [bump, hk, ih, hm, Ne.symm hk]
      · simp [bump, hk, ih, hm, Ne.symm hk]

/-- Helper: bumping key `c` raises its count by one and no other. -/
theorem bump_lookup (c x : String) : ∀ m : List (String × Nat),
    lookupCount (bump m c) x =
      if x = c then lookupCount m x + 1 else lookupCount m x := by
  intro m
  induction m with
  | nil =>
    by_cases hx : x = c
    · simp [bump, lookupCount, hx]
    · have hcx : ¬ c = x := fun h => hx h.symm
      simp [bump, lookupCount, hx, hcx]
  | cons kv rest ih =>
    obtain ⟨k, v⟩ := kv
    by_cases hk : k = c
    · subst hk
      by_cases hx : x = k
      · subst hx
        simp [bump, lookupCount]
      · have hkx : ¬ k = x := fun h => hx h.symm
        simp [bump, lookupCount, hx, hkx]
    · by_cases hkx : k = x
      · have hxc : ¬ x = c := fun h => hk (hkx.trans h)
        simp [bump, lookupCount, hk, hkx, hxc]
      · simp [bump, lookupCount, hk, hkx, ih]

/-- Helper: the final request counter of a batch is the fold of `bump`
over the submitted codes, independent of the transport. -/
theorem runTasks_counter (transport : String → Nat → TransportResult) :
    ∀ (tasks : List (String × String)) (counter : List (String × Nat)),
      (runTasks transport tasks counter).2 =
        tasks.foldl (fun m t => bump m t.2) counter := by
  intro tasks
  induction tasks with
  | nil => intro counter; rfl
  | cons t rest ih =>
    intro counter
    obtain ⟨mp, code⟩ := t
    simp only [runTasks, List.foldl_cons]
    exact ih (bump counter code)

/-- Helper: the counter's key list is the first-occurrence
deduplication of the codes folded into it. -/
theorem foldl_bump_keys : ∀ (codes : List String) (init : List (String × Nat)),
    (codes.foldl bump init).map Prod.fst =
      codes.foldl (fun acc c => if c ∈ acc then acc else acc ++ [c])
        (init.map Prod.fst) := by
  intro codes
  induction codes with
  | nil => intro init; rfl
  | cons c cs ih =>
    intro init
    simp only [List.foldl_cons]
    rw [ih (bump init c), bump_keys c init]

/-- Helper: after folding codes into the counter, each key's count grew
by that code's multiplicity in the fold. -/
theorem foldl_bump_lookup : ∀ (codes : List String) (init : List (String × Nat)) (x : String),
    lookupCount (codes.foldl bump init) x = lookupCount init x + codes.count x := by
  intro codes
  induction codes with
  | nil => intro init x; simp
  | cons c cs ih =>
    intro init x
    simp only [List.foldl_cons, List.count_cons]
    rw [ih (bump init c) x, bump_lookup c x init]
    by_cases hx : x = c
    · simp only [hx, if_true, beq_self_eq_true, if_pos]
      omega
    · have hcx : ¬ c = x := fun h => hx h.symm
      have hb : (c == x) = false := by simp [hcx]
      simp [hx, hb]

/-- Helper: first-occurrence deduplication never introduces a
duplicate. -/
theorem foldl_dedup_nodup : ∀ (codes : List String) (acc : List String), acc.Nodup →
    (codes.foldl (fun acc c => if c ∈ acc then acc else acc ++ [c]) acc).Nodup := by
  intro codes
  induction codes with
  | nil => intro acc h; exact h
  | cons c cs ih =>
    intro acc h
    simp only [List.foldl_cons]
    by_cases hm : c ∈ acc
    · rw [if_pos hm]; exact ih acc h
    · rw [if_neg hm]
      refine ih _ ?_
      simp [List.nodup_append, h, hm]

/-- Helper: an association list with duplicate-free keys is recovered by
looking each key up. -/
theorem assoc_map_snd : ∀ m : List (String × Nat), (m.map Prod.fst).Nodup →
    m.map Prod.snd = (m.map Prod.fst).map (fun k => lookupCount m k) := by
  intro m
  induction m with
  | nil => intro h; rfl
  | cons kv rest ih =>
    intro h
    obtain ⟨k, v⟩ := kv
    simp only [List.map_cons] at h ⊢
    rw [List.nodup_cons] at h
    obtain ⟨hk, hrest⟩ := h
    have hhead : lookupCount ((k, v) :: rest) k = v := by simp [lookupCount]
    rw [hhead]
    congr 1
    rw [ih hrest]
    apply List.map_congr_left
    intro a ha
    have hka : ¬ k = a := fun he => hk (he ▸ ha)
    simp [lookupCount, hka]

/-- Helper: a code whose first character is '6' is counted by
`startswith6` and mapped to "SHSE:". -/
theorem head6_facts (c : String) (h : c.data.head? = some '6') :
    startswith6 c = true ∧ get_market_pfx c = "SHSE:" := by
  cases hx : c.data with
  | nil => rw [hx] at h; cases h
  | cons a l =>
    rw [hx] at h
    have ha : a = '6' := by simpa using h
    subst ha
    exact ⟨by simp [startswith6, hx], by simp [get_market_pfx, hx]⟩

/-- Helper: a code whose first character is '0' or '3' is not counted by
`startswith6` and is mapped to "SZSE:". -/
theorem head03_facts (c : String) (ch : Char) (h : c.data.head? = some ch)
    (h03 : ch = '0' ∨ ch = '3') :
    startswith6 c = false ∧ get_market_pfx c = "SZSE:" := by
  cases hx : c.data with
  | nil => rw [hx] at h; cases h
  | cons a l =>
    rw [hx] at h
    have ha : a = ch := by simpa using h
    subst ha
    rcases h03 with h0 | h3
    · subst h0
      exact ⟨by simp [startswith6, hx], by simp [get_market_pfx, hx]⟩
    · subst h3
      exact ⟨by simp [startswith6, hx], by simp [get_market_pfx, hx]⟩

/-- Helper: when every code leads with '6', '0' or '3', the summary's
`startswith('6')` count agrees with the count of codes whose derived
prefix is "SHSE:", and the two market filters partition the list. -/
theorem market_filter_aux : ∀ l : List String,
    l.all (fun code => code.data.head? == some '6' || code.data.head? == some '0' ||
      code.data.head? == some '3') = true →
    sh_count l = (l.filter (fun c => get_market_pfx c = "SHSE:")).length ∧
    l.length = (l.filter (fun c => get_market_pfx c = "SHSE:")).length +
      (l.filter (fun c => get_market_pfx c = "SZSE:")).length := by
  intro l
  induction l with
  | nil => intro _; exact ⟨rfl, rfl⟩
  | cons c cs ih =>
    intro h
    simp only [List.all_cons, Bool.and_eq_true, Bool.or_eq_true, beq_iff_eq] at h
    obtain ⟨hc, hcs⟩ := h
    obtain ⟨ih1, ih2⟩ := ih hcs
    have hne1 : ¬ (("SHSE:" : String) = "SZSE:") := by decide
    have hne2 : ¬ (("SZSE:" : String) = "SHSE:") := by decide
    rcases hc with (h6 | h0) | h3
    · obtain ⟨hs, hp⟩ := head6_facts c h6
      simp [sh_count, List.filter_cons, hs, hp, hne1] at ih1 ih2 ⊢
      omega
    · obtain ⟨hs, hp⟩ := head03_facts c '0' h0 (Or.inl rfl)
      simp [sh_count, List.filter_cons, hs, hp, hne2] at ih1 ih2 ⊢
      omega
    · obtain ⟨hs, hp⟩ := head03_facts c '3' h3 (Or.inr rfl)
      simp [sh_count, List.filter_cons, hs, hp, hne2] at ih1 ih2 ⊢
      omega

/-- C9 counterexample: the summary's per-market breakdown does not
partition by the derived market prefix. The code "100001" is requested
with the lenient default prefix "SHSE:", yet the summary counts it on
the SZSE side (`sh_count` counts only leading-'6' codes and `sz_count`
is everything else). -/
theorem summary_partition_cex :
    get_market_pfx "100001" = "SHSE:" ∧
    sh_count ["100001"] = 0 ∧ sz_count ["100001"] = 1 := by
  refine ⟨by decide, by decide, by decide⟩

/-- C9 amended: whenever every identifier leads with '6', '0' or '3',
the summary's per-market breakdown does partition the identifiers by
their derived market prefix; and the mean-attempts divisor and
numerator are faithful: the final request counter holds exactly one
entry per distinct identifier (the first-occurrence deduplication of
the submitted codes) whose value is that identifier's number of
queries. -/
theorem summary_stats (stock_codes : List String)
    (transport : String → Nat → TransportResult)
    (h : stock_codes.all (fun code =>
        code.data.head? == some '6' || code.data.head? == some '0' ||
        code.data.head? == some '3') = true) :
    sh_count stock_codes =
      (stock_codes.filter (fun c => get_market_pfx c = "SHSE:")).length ∧
    sz_count stock_codes =
      (stock_codes.filter (fun c => get_market_pfx c = "SZSE:")).length ∧
    ((runTasks transport (tasksOf stock_codes) []).2).map Prod.fst =
      dedupFirst stock_codes ∧
    ((runTasks transport (tasksOf stock_codes) []).2).map Prod.snd =
      (dedupFirst stock_codes).map (fun c => stock_codes.count c) := by
  obtain ⟨ha1, ha2⟩ := market_filter_aux stock_codes h
  have hcnt : (runTasks transport (tasksOf stock_codes) []).2 =
      stock_codes.foldl bump [] := by
    rw [runTasks_counter]
    simp only [tasksOf, List.foldl_map]
  have hkeys : ((runTasks transport (tasksOf stock_codes) []).2).map Prod.fst =
      dedupFirst stock_codes := by
    rw [hcnt, foldl_bump_keys]
    rfl
  have hnodup : (dedupFirst stock_codes).Nodup := by
    have hd : dedupFirst stock_codes =
        stock_codes.foldl (fun acc c => if c ∈ acc then acc else acc ++ [c]) [] := rfl
    rw [hd]
    exact foldl_dedup_nodup stock_codes [] List.nodup_nil
  refine ⟨ha1, ?_, hkeys, ?_⟩
  · have hlen : sh_count stock_codes ≤ stock_codes.length := by
      simp only [sh_count]
      exact List.length_filter_le _ _
    simp only [sz_count]
    omega
  · have hm := assoc_map_snd ((runTasks transport (tasksOf stock_codes) []).2)
      (by rw [hkeys]; exact hnodup)
    rw [hm, hkeys]
    apply List.map_congr_left
    intro a _
    rw [hcnt, foldl_bump_lookup]
    simp [lookupCount]

/-- Witness for the amended C9 on a batch with a duplicate identifier
and both markets. -/
theorem summary_stats_witness :
    (["603001", "000001", "603001"].all (fun code =>
        code.data.head? == some '6' || code.data.head? == some '0' ||
        code.data.head? == some '3') = true) ∧
    (sh_count ["603001", "000001", "603001"] =
        ((["603001", "000001", "603001"]).filter
          (fun c => get_market_pfx c = "SHSE:")).length ∧
      sz_count ["603001", "000001", "603001"] =
        ((["603001", "000001", "603001"]).filter
          (fun c => get_market_pfx c = "SZSE:")).length ∧
      ((runTasks (fun _ _ => .timeout)
          (tasksOf ["603001", "000001", "603001"]) []).2).map Prod.fst =
        dedupFirst ["603001", "000001", "603001"] ∧
      ((runTasks (fun _ _ => .timeout)
          (tasksOf ["603001", "000001", "603001"]) []).2).map Prod.snd =
        (dedupFirst ["603001", "000001", "603001"]).map
          (fun c => (["603001", "000001", "603001"]).count c)) :=
  ⟨by decide,
    summary_stats ["603001", "000001", "603001"] (fun _ _ => .timeout) (by decide)⟩

end Guru

